import Mathlib

/-!
Verification development for the bmfont package: a shallow embedding of the
BMFont text-format parser (parse.go, built on Go's text/scanner), the
descriptor data model (descriptor.go), and the text layout/draw engine
(bitmapfont.go), together with theorems settling the claims about them.

Modelling conventions:
* Go `int` and `rune` arithmetic is modelled with unbounded `Int`; the format
  never approaches 64-bit bounds, and no claim is about overflow.
* Go runes are modelled as Lean `Char` (Unicode scalar values).
* Go maps are modelled as association lists with overwrite-on-insert
  (`assocInsert`) and first-match lookup (`assocLookup`); this matches Go map
  insert/lookup observably.  Go map iteration order is unspecified, so code
  iterating over a map (`Read` in bitmapfont.go) is parameterised by an
  iteration order that theorems constrain to be a permutation of the entries.
* Side-effecting sinks (the `drawer` interface) are modelled by folding an
  abstract sink function over the emitted draw calls; the opaque page-sheet
  image passed to `Draw` is represented by the page index used to select it.
-/

namespace BmFont

/-! ## Geometry: the parts of Go's image.Point / image.Rectangle that the
package uses (image.Pt, Point.Add, Rectangle.Empty, Rectangle.Union). -/

structure Pt where
  x : Int
  y : Int
deriving DecidableEq

def Pt.add (a b : Pt) : Pt := ⟨a.x + b.x, a.y + b.y⟩

structure Rect where
  min : Pt
  max : Pt
deriving DecidableEq

/-- Go image.Rectangle.Empty: a rectangle with Min.X >= Max.X or
Min.Y >= Max.Y contains no points. -/
def Rect.empty (r : Rect) : Bool :=
  decide (r.min.x ≥ r.max.x ∨ r.min.y ≥ r.max.y)

/-- Go image.Rectangle.Union: smallest rectangle containing both; an empty
argument is ignored. -/
def Rect.union (r s : Rect) : Rect :=
  if r.empty then s
  else if s.empty then r
  else ⟨⟨Min.min r.min.x s.min.x, Min.min r.min.y s.min.y⟩,
        ⟨Max.max r.max.x s.max.x, Max.max r.max.y s.max.y⟩⟩

/-- The zero value of image.Rectangle (initial state of boundsMeasurer). -/
def Rect.zero : Rect := ⟨⟨0, 0⟩, ⟨0, 0⟩⟩

/-! ## Association-list model of Go maps. -/

def assocLookup {κ α : Type} [DecidableEq κ] : List (κ × α) → κ → Option α
  | [], _ => none
  | (k', v) :: rest, k => if k' = k then some v else assocLookup rest k

def assocInsert {κ α : Type} [DecidableEq κ] : List (κ × α) → κ → α → List (κ × α)
  | [], k, v => [(k, v)]
  | (k', v') :: rest, k, v =>
    if k' = k then (k, v) :: rest else (k', v') :: assocInsert rest k v

instance {ε α : Type} [DecidableEq ε] [DecidableEq α] : DecidableEq (Except ε α) := fun a b =>
  match a, b with
  | Except.ok x, Except.ok y =>
    if h : x = y then isTrue (congrArg Except.ok h)
    else isFalse (fun hh => h (Except.ok.inj hh))
  | Except.error x, Except.error y =>
    if h : x = y then isTrue (congrArg Except.error h)
    else isFalse (fun hh => h (Except.error.inj hh))
  | Except.ok _, Except.error _ => isFalse (fun hh => Except.noConfusion hh)
  | Except.error _, Except.ok _ => isFalse (fun hh => Except.noConfusion hh)

/-! ## Descriptor data model (descriptor.go). -/

structure Padding where
  up : Int
  right : Int
  down : Int
  left : Int
deriving DecidableEq

structure Spacing where
  horizontal : Int
  vertical : Int
deriving DecidableEq

structure Info where
  face : String
  size : Int
  bold : Bool
  italic : Bool
  charset : String
  unicode : Bool
  stretchH : Int
  smooth : Bool
  aa : Int
  padding : Padding
  spacing : Spacing
  outline : Int
deriving DecidableEq

/-- Go `type ChannelInfo int` (and `type Channel int`) are plain integer
enumerations; modelled as Int. -/
structure Common where
  lineHeight : Int
  base : Int
  scaleW : Int
  scaleH : Int
  packed : Bool
  alphaChannel : Int
  redChannel : Int
  greenChannel : Int
  blueChannel : Int
deriving DecidableEq

structure Page where
  id : Int
  file : String
deriving DecidableEq

structure CharRec where
  id : Char
  x : Int
  y : Int
  width : Int
  height : Int
  xoffset : Int
  yoffset : Int
  xadvance : Int
  page : Int
  channel : Int
deriving DecidableEq

/-- Go Char.Pos: source position of the glyph within its page sheet. -/
def CharRec.srcPos (c : CharRec) : Pt := ⟨c.x, c.y⟩

/-- Go Char.Size. -/
def CharRec.size (c : CharRec) : Pt := ⟨c.width, c.height⟩

structure CharPair where
  first : Char
  second : Char
deriving DecidableEq

structure Kerning where
  amount : Int
deriving DecidableEq

/-- The Descriptor (named ControlData in the parser source file): the parsed
font metadata.  The Go maps Pages, Chars, Kerning are association lists. -/
structure ControlData where
  info : Info
  common : Common
  pages : List (Int × Page)
  chars : List (Char × CharRec)
  kerning : List (CharPair × Kerning)
deriving DecidableEq

def Padding.zero : Padding := ⟨0, 0, 0, 0⟩

def Spacing.zero : Spacing := ⟨0, 0⟩

def Info.zero : Info :=
  ⟨"", 0, false, false, "", false, 0, false, 0, Padding.zero, Spacing.zero, 0⟩

def Common.zero : Common := ⟨0, 0, 0, 0, false, 0, 0, 0, 0⟩

/-- The zero-valued ControlData the builder starts from (maps made empty). -/
def ControlData.empty : ControlData := ⟨Info.zero, Common.zero, [], [], []⟩

/-! ## Text layout / draw engine (bitmapfont.go). -/

/-- One call to the drawer sink: destination rectangle, the page index whose
sheet is passed as the source image (`f.PageSheets[ch.Page]`), and the source
origin point (`ch.Pos()`). -/
structure DrawCall where
  rect : Rect
  page : Int
  src : Pt
deriving DecidableEq

/-- Go (*BitmapFont).char: glyph lookup with fallback to the glyph for ?. -/
def ControlData.charGet (d : ControlData) (r : Char) : Option CharRec :=
  match assocLookup d.chars r with
  | some c => some c
  | none => assocLookup d.chars '?'

/-- Go (*BitmapFont).drawText, parameterised by the drawer sink.  The loop
state is (cursor, prev, i): `i` is the byte offset of the current rune in the
`for i, r := range text` loop (it is only tested for being positive, i.e. not
the first rune), advanced by the rune's UTF-8 length each iteration. -/
def drawTextLoop {σ : Type} (sink : σ → DrawCall → σ) (d : ControlData) (pos0 : Pt) :
    List Char → Pt → Char → Nat → σ → σ
  | [], _, _, _, acc => acc
  | r :: rest, cursor, prev, i, acc =>
    if r = '\n' then
      drawTextLoop sink d pos0 rest ⟨pos0.x, cursor.y + d.common.lineHeight⟩ prev
        (i + r.utf8Size) acc
    else
      match d.charGet r with
      | none => drawTextLoop sink d pos0 rest cursor prev (i + r.utf8Size) acc
      | some ch =>
        let mn : Pt := ⟨cursor.x + ch.xoffset, cursor.y - d.common.base + ch.yoffset⟩
        let dr : Rect := ⟨mn, mn.add ch.size⟩
        let acc' := sink acc ⟨dr, ch.page, ch.srcPos⟩
        let x1 := cursor.x + ch.xadvance
        let x2 := if i > 0 then
            match assocLookup d.kerning ⟨prev, r⟩ with
            | some k => x1 + k.amount
            | none => x1
          else x1
        drawTextLoop sink d pos0 rest ⟨x2, cursor.y⟩ r (i + r.utf8Size) acc'

/-- The sequence of sink calls DrawText(dst, pos0, text) performs: drawText
with the imageDrawer sink, observed as the list of draw calls in order.
`var prev rune` starts at the zero rune. -/
def drawTextCalls (d : ControlData) (pos0 : Pt) (text : List Char) : List DrawCall :=
  drawTextLoop (fun l c => l ++ [c]) d pos0 text pos0 (Char.ofNat 0) 0 []

/-- Go (*BitmapFont).MeasureText: drawText from position (0,0) with the
boundsMeasurer sink, which unions each destination rectangle into a running
bounds rectangle starting from the zero rectangle. -/
def measureText (d : ControlData) (text : List Char) : Rect :=
  drawTextLoop (fun b c => b.union c.rect) d ⟨0, 0⟩ text ⟨0, 0⟩ (Char.ofNat 0) 0 Rect.zero

/-! ## Font loading (bitmapfont.go Read).

Read iterates `for i, page := range desc.Pages` over a Go map, whose
iteration order is unspecified; the loop is therefore modelled over an
explicit entry order that theorems constrain to be a permutation of the page
table.  `sheets` is the SheetReaderFunc composed with image decoding: an
opaque capability from filename to a decoded sheet or an error.  The first
component of the result is the trace of filenames passed to the capability,
in call order. -/

def readPagesLoop {Sheet : Type} (sheets : String → Except String Sheet) :
    List (Int × Page) → List (Int × Sheet) → List String × Except String (List (Int × Sheet))
  | [], acc => ([], Except.ok acc)
  | (i, pg) :: rest, acc =>
    match sheets pg.file with
    | Except.error e => ([pg.file], Except.error e)
    | Except.ok sh =>
      let r := readPagesLoop sheets rest (assocInsert acc i sh)
      (pg.file :: r.1, r.2)

structure FontModel (Sheet : Type) where
  descriptor : ControlData
  pageSheets : List (Int × Sheet)
deriving DecidableEq

/-- Go Read, after the descriptor has been parsed: decode every page of the
page table (in the given map-iteration order) or abort on the first failure,
returning no font in that case. -/
def readFont {Sheet : Type} (d : ControlData) (sheets : String → Except String Sheet)
    (order : List (Int × Page)) : List String × Except String (FontModel Sheet) :=
  let r := readPagesLoop sheets order []
  (r.1, r.2.map (fun m => ⟨d, m⟩))

/-! ## Tokenizer (Go text/scanner, as configured by tagsParser.parse).

parse.go configures the scanner with newline removed from the whitespace set
(`p.scanner.Whitespace ^= 1 << '\n'`) and a no-op Error handler, so scanner
errors are swallowed and newline is returned as a token.  The model below
covers the token classes the format grammar uses: identifiers, decimal
integer literals, quoted strings, and single-rune tokens (including '\n').
Not modelled because no .fnt input reaches them: float/hex/octal numbers,
char literals, raw strings, comments, and multi-character escape sequences
inside strings (octal/hex/unicode escapes). -/

structure ScanPos where
  line : Nat
  col : Nat
deriving DecidableEq

inductive Tok where
  | eof
  | ident
  | intLit
  | strLit
  | chTok (c : Char)
deriving DecidableEq

/-- Go scanner.TokenString: a printable representation of a token class or
rune (runes are rendered quoted, as by strconv.Quote). -/
def quoteCh (c : Char) : String :=
  if c = '\n' then "\"\\n\""
  else if c = '\t' then "\"\\t\""
  else if c = '\r' then "\"\\r\""
  else if c = '\\' then "\"\\\\\""
  else if c = '"' then "\"\\\"\""
  else "\"" ++ String.singleton c ++ "\""

def tokenString : Tok → String
  | Tok.eof => "EOF"
  | Tok.ident => "Ident"
  | Tok.intLit => "Int"
  | Tok.strLit => "String"
  | Tok.chTok c => quoteCh c

/-- Whitespace skipped by the scanner after `Whitespace ^= 1 << '\n'`:
space, tab and carriage return, but not newline. -/
def isWS (c : Char) : Bool := c = ' ' || c = '\t' || c = '\r'

/-- First rune of an identifier (Go default isIdentRune: a letter or '_';
letters restricted to ASCII, which is all the format uses). -/
def isLetterCh (c : Char) : Bool := c.isAlpha || c = '_'

def isIdentCh (c : Char) : Bool := isLetterCh c || c.isDigit

/-- Take the longest run satisfying p, returning (run, remainder). -/
def spanP (p : Char → Bool) : List Char → List Char × List Char
  | [] => ([], [])
  | c :: rest =>
    if p c then
      let r := spanP p rest
      (c :: r.1, r.2)
    else ([], c :: rest)

/-- Body of a quoted string after the opening quote (Go scanString): consume
up to and including the closing quote; a backslash escapes the following
character; stop without consuming at a newline or end of input (the
"literal not terminated" case, whose error the no-op handler swallows).
Returns (consumed characters, remainder). -/
def scanStrBody : Bool → List Char → List Char × List Char
  | _, [] => ([], [])
  | esc, c :: rest =>
    if c = '\n' then ([], c :: rest)
    else if esc then
      let r := scanStrBody false rest
      (c :: r.1, r.2)
    else if c = '"' then ([c], rest)
    else if c = '\\' then
      let r := scanStrBody true rest
      (c :: r.1, r.2)
    else
      let r := scanStrBody false rest
      (c :: r.1, r.2)

structure ScanState where
  inp : List Char
  line : Nat
  col : Nat
deriving DecidableEq

/-- Go scanner.Scan + TokenText + Position: scan one token, returning the
token class, its literal text, the position of its first character, and the
scanner state after it.  Line/column counting matches text/scanner: both
start at 1 and column counts characters on the line. -/
def scanTok (s : ScanState) : Tok × String × ScanPos × ScanState :=
  let ws := spanP isWS s.inp
  let line := s.line
  let col := s.col + ws.1.length
  match ws.2 with
  | [] => (Tok.eof, "", ⟨line, col⟩, ⟨[], line, col⟩)
  | c :: cs =>
    if isLetterCh c then
      let r := spanP isIdentCh cs
      (Tok.ident, String.mk (c :: r.1), ⟨line, col⟩, ⟨r.2, line, col + 1 + r.1.length⟩)
    else if c.isDigit then
      let r := spanP Char.isDigit cs
      (Tok.intLit, String.mk (c :: r.1), ⟨line, col⟩, ⟨r.2, line, col + 1 + r.1.length⟩)
    else if c = '"' then
      let r := scanStrBody false cs
      (Tok.strLit, String.mk (c :: r.1), ⟨line, col⟩, ⟨r.2, line, col + 1 + r.1.length⟩)
    else if c = '\n' then
      (Tok.chTok '\n', String.mk [c], ⟨line, col⟩, ⟨cs, line + 1, 1⟩)
    else
      (Tok.chTok c, String.mk [c], ⟨line, col⟩, ⟨cs, line, col + 1⟩)

/-- Go scanner.Next: consume one raw character, bypassing tokenization (used
by the `letter="""` workaround). -/
def scannerNextRaw (s : ScanState) : ScanState :=
  match s.inp with
  | [] => s
  | c :: rest => if c = '\n' then ⟨rest, s.line + 1, 1⟩ else ⟨rest, s.line, s.col + 1⟩

/-! ## Tags parser (parse.go tagsParser). -/

/-- One accumulated error: `newError` records the scanner position and the
expectation message (Go renders them as "file:line:col: msg"). -/
structure PErr where
  pos : ScanPos
  msg : String
deriving DecidableEq

/-- tagsParser state: scanner plus the most recently scanned token
(p.tok, p.lit, p.pos) and the accumulated error list. -/
structure PState where
  scan : ScanState
  tok : Tok
  lit : String
  pos : ScanPos
  errs : List PErr
deriving DecidableEq

/-- tagsParser.next. -/
def pnext (p : PState) : PState :=
  let r := scanTok p.scan
  { p with scan := r.2.2.2, tok := r.1, lit := r.2.1, pos := r.2.2.1 }

/-- tagsParser.error / newError: append to the error list. -/
def addError (p : PState) (e : PErr) : PState := { p with errs := p.errs ++ [e] }

/-- tagsParser.errorExpected. -/
def errorExpected (p : PState) (msg : String) : PState :=
  addError p ⟨p.pos, "expected " ++ msg ++ ", found " ++ tokenString p.tok⟩

/-- tagsParser.expect: record an error if the current token differs, then
advance unconditionally. -/
def expect (p : PState) (t : Tok) (msg : String) : PState :=
  pnext (if p.tok = t then p else errorExpected p msg)

/-- strconv.Unquote on the escape sequences a double-quoted Go string may
contain (simple one-character escapes; octal/hex/unicode escapes are not
modelled).  Fails on a bad escape, a stray quote, or a trailing backslash. -/
def unescapeChars : List Char → Option (List Char)
  | [] => some []
  | '\\' :: e :: rest =>
    let m : Option Char :=
      if e = 'n' then some '\n'
      else if e = 't' then some '\t'
      else if e = 'r' then some '\r'
      else if e = '\\' then some '\\'
      else if e = '"' then some '"'
      else if e = 'a' then some (Char.ofNat 7)
      else if e = 'b' then some (Char.ofNat 8)
      else if e = 'f' then some (Char.ofNat 12)
      else if e = 'v' then some (Char.ofNat 11)
      else none
    match m, unescapeChars rest with
    | some c, some tl => some (c :: tl)
    | _, _ => none
  | ['\\'] => none
  | '"' :: _ => none
  | c :: rest => (unescapeChars rest).map (fun tl => c :: tl)

/-- strconv.Unquote restricted to double-quoted literals: the token text must
start and end with an unescaped quote and the interior must unescape. -/
def unquote (s : String) : Option String :=
  match s.data with
  | '"' :: rest =>
    match rest.getLast? with
    | some lastC =>
      if lastC = '"' then (unescapeChars rest.dropLast).map (fun l => String.mk l)
      else none
    | none => none
  | _ => none

/-- tagsParser.parseIntList: concatenate the literal text of a maximal run of
Int, ',' and '-' tokens.  The fuel argument only bounds iterations; every
iteration consumes input, so the entry points' fuel is never exhausted. -/
def parseIntListLoop : Nat → PState → String → PState × String
  | 0, p, acc => (p, acc)
  | n + 1, p, acc =>
    if p.tok = Tok.intLit ∨ p.tok = Tok.chTok ',' ∨ p.tok = Tok.chTok '-' then
      parseIntListLoop n (pnext p) (acc ++ p.lit)
    else (p, acc)

/-- One iteration of the attribute loop body in tagsParser.parse: parse
`identifier '=' value` from the current token.  Returns the state after the
iteration, the attribute name, and `some value` to store — or `none` on the
string-unquote failure path, which stores nothing and forces the current
token to '\n' ("end this line, rest is garbage") without consuming input. -/
def stepAttr (fl : Nat) (p : PState) : PState × String × Option String :=
  let attrName := p.lit
  let p1 := expect p Tok.ident ("attribute name")
  let p2 := expect p1 (Tok.chTok '=') ("\"=\"")
  match p2.tok with
  | Tok.strLit =>
    match unquote p2.lit with
    | none => ({ p2 with tok := Tok.chTok '\n' }, attrName, none)
    | some v =>
      if p2.scan.inp.head? = some '"' then
        -- workaround for letter="""
        (pnext { p2 with scan := scannerNextRaw p2.scan }, attrName, some (v ++ "\""))
      else (pnext p2, attrName, some v)
  | Tok.intLit =>
    let r := parseIntListLoop fl p2 ""
    (r.1, attrName, some r.2)
  | Tok.chTok '-' =>
    let r := parseIntListLoop fl p2 ""
    (r.1, attrName, some r.2)
  | _ => (errorExpected p2 ("string or integer attribute value"), attrName, some "")

/-- The attribute loop of tagsParser.parse: run stepAttr until the current
token is a newline or EOF, storing each produced attribute in the tag's
attribute map. -/
def parseAttrsLoop (fl : Nat) : Nat → PState → List (String × String) →
    PState × List (String × String)
  | 0, p, attrs => (p, attrs)
  | n + 1, p, attrs =>
    if p.tok = Tok.chTok '\n' ∨ p.tok = Tok.eof then (p, attrs)
    else
      let r := stepAttr fl p
      match r.2.2 with
      | some v => parseAttrsLoop fl n r.1 (assocInsert attrs r.2.1 v)
      | none => parseAttrsLoop fl n r.1 attrs

structure RawTag where
  name : String
  attrs : List (String × String)
deriving DecidableEq

/-- The outer loop of tagsParser.parse: one tag per line until EOF. -/
def parseTagsLoop (fl : Nat) : Nat → PState → List RawTag → List RawTag × PState
  | 0, p, acc => (acc.reverse, p)
  | n + 1, p, acc =>
    if p.tok = Tok.eof then (acc.reverse, p)
    else
      let tagName := p.lit
      let p1 := expect p Tok.ident ("tag name")
      let r := parseAttrsLoop fl fl p1 []
      let p3 := pnext r.1
      parseTagsLoop fl n p3 (⟨tagName, r.2⟩ :: acc)

/-- tagsParser.parse on a whole input: scan the first token, then run the tag
loop.  Every loop iteration strictly shrinks the pair (unconsumed characters,
current token is not EOF), which is at most input.length + 1 at entry, so the
fuel input.length + 2 given to every loop is never exhausted. -/
def parseTags (input : String) : List RawTag × PState :=
  let fl := input.length + 2
  let p0 : PState := pnext ⟨⟨input.data, 1, 1⟩, Tok.eof, "", ⟨1, 1⟩, []⟩
  parseTagsLoop fl fl p0 []

/-! ## Descriptor builder (parse.go parseControlData and the tag accessors). -/

/-- strconv.Atoi with the error discarded (`value, _ := strconv.Atoi(...)`):
optional sign followed by digits parses to the value, anything else to 0. -/
def digitsToNat (l : List Char) : Nat :=
  l.foldl (fun acc c => acc * 10 + (c.toNat - '0'.toNat)) 0

def atoi (s : String) : Int :=
  match s.data with
  | [] => 0
  | '+' :: ds => if ds ≠ [] ∧ ds.all Char.isDigit then (digitsToNat ds : Int) else 0
  | '-' :: ds => if ds ≠ [] ∧ ds.all Char.isDigit then -(digitsToNat ds : Int) else 0
  | ds => if ds.all Char.isDigit then (digitsToNat ds : Int) else 0

/-- strings.TrimSpace restricted to ASCII whitespace. -/
def isSP (c : Char) : Bool := c = ' ' || c = '\t' || c = '\r' || c = '\n'

def trimSP (s : String) : String :=
  String.mk (((s.data.dropWhile isSP).reverse.dropWhile isSP).reverse)

/-- strings.Split on "," (Go: splitting the empty string yields [""]). -/
def splitComma : List Char → List (List Char)
  | [] => [[]]
  | c :: rest =>
    if c = ',' then [] :: splitComma rest
    else
      match splitComma rest with
      | h :: t => (c :: h) :: t
      | [] => [[c]]

/-- tag.stringAttr: map lookup with the zero value "" for a missing key. -/
def stringAttr (t : RawTag) (nm : String) : String :=
  (assocLookup t.attrs nm).getD ""

/-- tag.intAttr. -/
def intAttr (t : RawTag) (nm : String) : Int := atoi (stringAttr t nm)

/-- tag.boolAttr. -/
def boolAttr (t : RawTag) (nm : String) : Bool := intAttr t nm ≠ 0

/-- tag.intListAttr: n comma-separated integers, missing entries default 0,
extra entries ignored. -/
def intListAttr (t : RawTag) (nm : String) (n : Nat) : List Int :=
  let parts := splitComma (stringAttr t nm).data
  (List.range n).map (fun i =>
    match parts.get? i with
    | some part => atoi (trimSP (String.mk part))
    | none => 0)

def paddingFrom (vs : List Int) : Padding :=
  ⟨vs.getD 0 0, vs.getD 1 0, vs.getD 2 0, vs.getD 3 0⟩

def spacingFrom (vs : List Int) : Spacing :=
  ⟨vs.getD 0 0, vs.getD 1 0⟩

/-- Go `rune(...)` conversion of a parsed integer attribute.  Invalid scalar
values cannot inhabit Lean's Char; Char.ofNat maps them to the zero rune
(irrelevant for any well-formed font). -/
def intToRune (i : Int) : Char := Char.ofNat i.toNat

/-- One case of the `switch tag.name` in parseControlData.  The char case
populates only the id and the 7 integer metric fields; Page and Channel stay
at their zero values. -/
def applyTag (f : ControlData) (t : RawTag) : ControlData :=
  if t.name = "info" then
    { f with info :=
      ⟨stringAttr t ("face"), intAttr t ("size"), boolAttr t ("bold"),
       boolAttr t ("italic"), stringAttr t ("charset"), boolAttr t ("unicode"),
       intAttr t ("stretchH"), boolAttr t ("smooth"), intAttr t ("aa"),
       paddingFrom (intListAttr t ("padding") 4),
       spacingFrom (intListAttr t ("spacing") 2), intAttr t ("outline")⟩ }
  else if t.name = "common" then
    { f with common :=
      ⟨intAttr t ("lineHeight"), intAttr t ("base"), intAttr t ("scaleW"),
       intAttr t ("scaleH"), boolAttr t ("packed"), intAttr t ("alphaChnl"),
       intAttr t ("redChnl"), intAttr t ("greenChnl"), intAttr t ("blueChnl")⟩ }
  else if t.name = "page" then
    let id := intAttr t ("id")
    { f with pages := assocInsert f.pages id ⟨id, stringAttr t ("file")⟩ }
  else if t.name = "char" then
    let id := intToRune (intAttr t ("id"))
    let rec0 : CharRec :=
      ⟨id, intAttr t ("x"), intAttr t ("y"), intAttr t ("width"),
       intAttr t ("height"), intAttr t ("xoffset"), intAttr t ("yoffset"),
       intAttr t ("xadvance"), 0, 0⟩
    { f with chars := assocInsert f.chars id rec0 }
  else if t.name = "kerning" then
    let pair : CharPair := ⟨intToRune (intAttr t ("first")), intToRune (intAttr t ("second"))⟩
    { f with kerning := assocInsert f.kerning pair ⟨intAttr t ("amount")⟩ }
  else f

/-- The tag-processing loop of parseControlData. -/
def buildControlData (tags : List RawTag) : ControlData :=
  tags.foldl applyTag ControlData.empty

/-- parseControlData: parse the tags; if any error accumulated, return the
error list and no descriptor, otherwise build the descriptor from all tags. -/
def parseControlData (input : String) : Except (List PErr) ControlData :=
  let r := parseTags input
  if r.2.errs = [] then Except.ok (buildControlData r.1) else Except.error r.2.errs

/-! ## Helper lemmas about the draw loop. -/

/-- The list-collecting sink accumulates by appending: the calls emitted are
independent of what is already in the accumulator. -/
theorem drawTextLoop_append (d : ControlData) (pos0 : Pt) (text : List Char) :
    ∀ (cursor : Pt) (prev : Char) (i : Nat) (acc : List DrawCall),
      drawTextLoop (fun l c => l ++ [c]) d pos0 text cursor prev i acc
        = acc ++ drawTextLoop (fun l c => l ++ [c]) d pos0 text cursor prev i [] := by
  induction text with
  | nil => intro cursor prev i acc; simp [drawTextLoop]
  | cons r rest ih =>
    intro cursor prev i acc
    by_cases hr : r = '\n'
    · subst hr
      simp only [drawTextLoop, if_pos rfl]
      exact ih _ _ _ _
    · cases hch : d.charGet r with
      | none =>
        simp only [drawTextLoop, if_neg hr, hch]
        exact ih _ _ _ _
      | some ch =>
        simp only [drawTextLoop, if_neg hr, hch]
        conv_lhs => rw [ih]
        conv_rhs => rw [ih]
        simp

/-- Folding the union sink is the same as collecting the calls and folding
Rect.union over them afterwards. -/
theorem drawTextLoop_union_foldl (d : ControlData) (pos0 : Pt) (text : List Char) :
    ∀ (cursor : Pt) (prev : Char) (i : Nat) (b : Rect),
      drawTextLoop (fun b c => b.union c.rect) d pos0 text cursor prev i b
        = (drawTextLoop (fun l c => l ++ [c]) d pos0 text cursor prev i []).foldl
            (fun b c => b.union c.rect) b := by
  induction text with
  | nil => intro cursor prev i b; simp [drawTextLoop]
  | cons r rest ih =>
    intro cursor prev i b
    by_cases hr : r = '\n'
    · subst hr
      simp only [drawTextLoop, if_pos rfl]
      exact ih _ _ _ _
    · cases hch : d.charGet r with
      | none =>
        simp only [drawTextLoop, if_neg hr, hch]
        exact ih _ _ _ _
      | some ch =>
        simp only [drawTextLoop, if_neg hr, hch]
        rw [ih]
        conv_rhs => rw [drawTextLoop_append]
        simp [List.foldl_append]

/-! ## Concrete specimens used by witnesses and counterexamples. -/

def charA : CharRec := ⟨'A', 0, 0, 5, 7, 1, 2, 10, 0, 0⟩

def charV : CharRec := ⟨'V', 8, 0, 6, 7, 3, 2, 8, 0, 0⟩

/-- The font of the C1 scenario: glyphs A (xadvance 10) and V (xadvance 8,
xoffset 3), kerning (A,V) = -2. -/
def fontAV : ControlData :=
  { info := Info.zero
    common := { Common.zero with lineHeight := 20, base := 16 }
    pages := [(0, ⟨0, "p.png"⟩)]
    chars := [('A', charA), ('V', charV)]
    kerning := [(⟨'A', 'V'⟩, ⟨-2⟩)] }

/-! ## Claim C1. -/

/-- C1 counterexample: in fontAV (A.xadvance = 10, V.xadvance = 8,
V.xoffset = 3, kerning (A,V) = -2 present), drawing "AV" from x = 0 places
V's destination rectangle left edge at 13 = 10 + V.xoffset, not at
8 + V.xoffset = 11 as the claim states: the kerning amount is not included
in the cursor before V's rectangle is computed. -/
theorem C1_counterexample :
    (drawTextCalls fontAV ⟨0, 0⟩ ['A', 'V']).map (fun c => c.rect.min.x) = [1, 13]
    ∧ charA.xadvance = 10 ∧ charV.xadvance = 8 ∧ charV.xoffset = 3
    ∧ assocLookup fontAV.kerning ⟨'A', 'V'⟩ = some ⟨-2⟩
    ∧ (13 : Int) ≠ 8 + charV.xoffset := by
  decide

/-- C1 amended: for a font with glyphs 'A' (xadvance 10) and 'V' and a
kerning entry for the ordered pair (A,V), drawing (or measuring) "AV" from
x = 0 places A's destination left edge at A.xoffset and V's at exactly
10 + V.xoffset: drawText adds the kerning amount for (previous, current) to
the cursor only after the current glyph's rectangle has been emitted and the
xadvance added, so the kerning affects glyphs after V, not V itself. -/
theorem C1_kerning_applied_after_current_glyph (d : ControlData) (cA cV : CharRec) (k : Int)
    (hA : assocLookup d.chars 'A' = some cA)
    (hV : assocLookup d.chars 'V' = some cV)
    (hadv : cA.xadvance = 10)
    (_hk : assocLookup d.kerning ⟨'A', 'V'⟩ = some ⟨k⟩) :
    (drawTextCalls d ⟨0, 0⟩ ['A', 'V']).map (fun c => c.rect.min.x)
      = [cA.xoffset, 10 + cV.xoffset] := by
  have hgA : d.charGet 'A' = some cA := by simp [ControlData.charGet, hA]
  have hgV : d.charGet 'V' = some cV := by simp [ControlData.charGet, hV]
  simp [drawTextCalls, drawTextLoop, hgA, hgV, hadv]

/-- Witness for C1's amended theorem at the concrete fontAV. -/
theorem C1_kerning_applied_after_current_glyph_witness :
    (drawTextCalls fontAV ⟨0, 0⟩ ['A', 'V']).map (fun c => c.rect.min.x)
      = [charA.xoffset, 10 + charV.xoffset] :=
  C1_kerning_applied_after_current_glyph fontAV charA charV (-2)
    (by decide) (by decide) (by decide) (by decide)

/-! ## Claim C2. -/

/-- C2: for every font and every text, MeasureText returns exactly the union
of the destination rectangles that DrawText from position (0,0) passes to
its sink (folded with image.Rectangle.Union starting from the zero, i.e.
empty, rectangle).  Both run drawTextLoop, differing only in the substituted
sink; measureText is a pure function of the font and the text, so it has no
side effects. -/
theorem C2_measureText_eq_union_of_drawText_calls (d : ControlData) (text : List Char) :
    measureText d text
      = (drawTextCalls d ⟨0, 0⟩ text).foldl (fun b c => b.union c.rect) Rect.zero := by
  unfold measureText drawTextCalls
  exact drawTextLoop_union_foldl d ⟨0, 0⟩ text ⟨0, 0⟩ (Char.ofNat 0) 0 Rect.zero

/-! ## Claim C3. -/

def charQ : CharRec := ⟨'?', 12, 0, 4, 7, 1, 1, 6, 0, 0⟩

/-- A font with glyph 'A', a fallback glyph '?', and no glyph 'Z'. -/
def fontFb : ControlData :=
  { info := Info.zero
    common := { Common.zero with lineHeight := 20, base := 16 }
    pages := [(0, ⟨0, "p.png"⟩)]
    chars := [('A', charA), ('?', charQ)]
    kerning := [] }

/-- A font with glyph 'A' only: neither 'Z' nor the fallback '?'. -/
def fontNoFb : ControlData :=
  { info := Info.zero
    common := { Common.zero with lineHeight := 20, base := 16 }
    pages := [(0, ⟨0, "p.png"⟩)]
    chars := [('A', charA)]
    kerning := [] }

/-- C3: for a font d1 whose glyph table lacks 'Z' but has the fallback '?',
measuring "Z" equals measuring "?"; for a font d2 lacking both, measuring
"Z" yields the zero rectangle (which is empty), drawing "Z" emits zero draw
calls, and processing the skipped code-point leaves the whole loop state —
cursor, previous rune and the accumulator of any sink — unchanged, only the
byte index advancing. -/
theorem C3_missing_glyph_fallback (d1 d2 : ControlData) (q : CharRec)
    (h1 : assocLookup d1.chars 'Z' = none)
    (h2 : assocLookup d1.chars '?' = some q)
    (h3 : assocLookup d2.chars 'Z' = none)
    (h4 : assocLookup d2.chars '?' = none) :
    measureText d1 ['Z'] = measureText d1 ['?']
    ∧ measureText d2 ['Z'] = Rect.zero
    ∧ Rect.zero.empty = true
    ∧ (∀ pos0, drawTextCalls d2 pos0 ['Z'] = [])
    ∧ (∀ (σ : Type) (sink : σ → DrawCall → σ) (pos0 cursor : Pt) (prev : Char)
         (i : Nat) (rest : List Char) (acc : σ),
        drawTextLoop sink d2 pos0 ('Z' :: rest) cursor prev i acc
          = drawTextLoop sink d2 pos0 rest cursor prev (i + 'Z'.utf8Size) acc) := by
  have hgZ1 : d1.charGet 'Z' = some q := by simp [ControlData.charGet, h1, h2]
  have hgQ1 : d1.charGet '?' = some q := by simp [ControlData.charGet, h2]
  have hgZ2 : d2.charGet 'Z' = none := by simp [ControlData.charGet, h3, h4]
  refine ⟨?_, ?_, by decide, ?_, ?_⟩
  · simp [measureText, drawTextLoop, hgZ1, hgQ1]
  · simp [measureText, drawTextLoop, hgZ2]
  · intro pos0
    simp [drawTextCalls, drawTextLoop, hgZ2]
  · intro σ sink pos0 cursor prev i rest acc
    simp [drawTextLoop, hgZ2]

/-- Witness for C3 at the concrete fonts fontFb and fontNoFb. -/
theorem C3_missing_glyph_fallback_witness :
    measureText fontFb ['Z'] = measureText fontFb ['?']
    ∧ measureText fontNoFb ['Z'] = Rect.zero
    ∧ Rect.zero.empty = true
    ∧ (∀ pos0, drawTextCalls fontNoFb pos0 ['Z'] = [])
    ∧ (∀ (σ : Type) (sink : σ → DrawCall → σ) (pos0 cursor : Pt) (prev : Char)
         (i : Nat) (rest : List Char) (acc : σ),
        drawTextLoop sink fontNoFb pos0 ('Z' :: rest) cursor prev i acc
          = drawTextLoop sink fontNoFb pos0 rest cursor prev (i + 'Z'.utf8Size) acc) :=
  C3_missing_glyph_fallback fontFb fontNoFb charQ (by decide) (by decide)
    (by decide) (by decide)

/-! ## Claim C4. -/

def charNlA : CharRec := ⟨'A', 0, 0, 4, 6, 0, 0, 10, 0, 0⟩

def charNlB : CharRec := ⟨'B', 4, 0, 4, 6, 0, 0, 7, 0, 0⟩

def charNlC : CharRec := ⟨'C', 8, 0, 4, 6, 0, 0, 4, 0, 0⟩

/-- A font for the newline scenario: glyphs A, B, C (zero offsets), kerning
(A,B) = -5, lineHeight 20, base 16. -/
def fontNl : ControlData :=
  { info := Info.zero
    common := { Common.zero with lineHeight := 20, base := 16 }
    pages := [(0, ⟨0, "p.png"⟩)]
    chars := [('A', charNlA), ('B', charNlB), ('C', charNlC)]
    kerning := [(⟨'A', 'B'⟩, ⟨-5⟩)] }

/-- C4: processing a newline resets cursor.x to the start position's x,
adds exactly common.lineHeight to cursor.y, and passes the previous rune
through unchanged (it is not updated for the newline iteration) — stated as
an equation on drawTextLoop for every sink and state.  Concretely, drawing
"A\nBC" in fontNl from (2,3): B starts the new line at x = 2 (the start x)
with its top edge 20 below A's, and because prev is still 'A' when B is
processed, the kerning pair (A,B) = -5 is looked up and applied (after B's
rectangle, per C1), shifting C to x = 2 + 7 - 5 = 4. -/
theorem C4_newline_resets_cursor :
    (∀ (σ : Type) (sink : σ → DrawCall → σ) (d : ControlData) (pos0 cursor : Pt)
       (prev : Char) (i : Nat) (rest : List Char) (acc : σ),
      drawTextLoop sink d pos0 ('\n' :: rest) cursor prev i acc
        = drawTextLoop sink d pos0 rest ⟨pos0.x, cursor.y + d.common.lineHeight⟩ prev
            (i + '\n'.utf8Size) acc)
    ∧ (drawTextCalls fontNl ⟨2, 3⟩ ['A', '\n', 'B', 'C']).map (fun c => c.rect.min)
        = [⟨2, -13⟩, ⟨2, 7⟩, ⟨4, 7⟩] := by
  constructor
  · intro σ sink d pos0 cursor prev i rest acc
    simp [drawTextLoop]
  · decide

/-! ## Claim C5. -/

/-- The claim's input line `page id 3`, followed by a second line to observe
that parsing continues. -/
def c5input : String := "page id 3\nchar id=65\n"

/-- C5 counterexample: the line `page id 3` produces two syntax errors, not
exactly one — the missing-'=' error is followed by a second error ("expected
string or integer attribute value") because expect consumes the integer
token and the value switch then sees the newline. -/
theorem C5_counterexample :
    (parseTags c5input).2.errs.length = 2
    ∧ ¬ (parseTags c5input).2.errs.length = 1 := by
  decide

/-- C5 amended: the line `page id 3` produces exactly two syntax errors: the
first references the expected "=" token and carries the position of the
offending integer token (line 1, column 9); the second reports a missing
attribute value at the newline (line 1, column 10).  Parsing continues with
the next line, whose tag is parsed normally. -/
theorem C5_missing_equals_errors :
    (parseTags c5input).2.errs
      = [⟨⟨1, 9⟩, "expected \"=\", found Int"⟩,
         ⟨⟨1, 10⟩, "expected string or integer attribute value, found \"\\n\""⟩]
    ∧ (parseTags c5input).1
      = [⟨"page", [("id", "")]⟩, ⟨"char", [("id", "65")]⟩] := by
  decide

/-! ## Claim C6. -/

/-- A line with the `letter="""` workaround followed by another attribute, to
observe that scanning continues after the extra quote. -/
def c6input : String := "char letter=\"\"\" x=5\n"

/-- C6: the quoted value `"""` parses to the one-character string value
consisting of a single double-quote character, the extra quote is consumed,
and scanning continues normally (the following attribute x=5 is parsed);
no error is recorded. -/
theorem C6_escaped_quote_workaround :
    (parseTags c6input).1 = [⟨"char", [("letter", "\""), ("x", "5")]⟩]
    ∧ (parseTags c6input).2.errs = []
    ∧ ("\"" : String).length = 1 := by
  decide

/-! ## Claim C7. -/

/-- The failing input for C7: the quoted value `"\q"` fails strconv.Unquote
(invalid escape), and the rest of the line, ` c=1`, is NOT abandoned. -/
def c7input : String := "a b=\"\\q\" c=1\n"

/-- C7 evaluation at the failing input: on the unquote failure the parser
records NO error for the malformed string (the error list contains no entry
at its position), merely forces the current token to '\n' without consuming
the rest of the line; the line's tag IS still emitted with the attributes
parsed before the failure (here none), but tokenizing resumes immediately
after the string token, so the remainder `c=1` of the same line is re-parsed
as a spurious new tag "c", yielding three unrelated errors. -/
theorem C7_unquote_failure_eval :
    (parseTags c7input).1 = [⟨"a", []⟩, ⟨"c", [("=", "")]⟩]
    ∧ (parseTags c7input).2.errs
      = [⟨⟨1, 11⟩, "expected attribute name, found \"=\""⟩,
         ⟨⟨1, 12⟩, "expected \"=\", found Int"⟩,
         ⟨⟨1, 13⟩, "expected string or integer attribute value, found \"\\n\""⟩]
    ∧ ((parseTags c7input).2.errs.filter (fun e => e.pos = ⟨1, 5⟩)) = [] := by
  decide

/-! ## Claim C8. -/

/-- Two lines, each contributing two syntax errors. -/
def c8input : String := "page id 3\npage id 4\n"

/-- C8: errors accumulate across the whole parse instead of stopping at the
first (the two-line input's error list has entries from both lines, four in
all), and parseControlData returns either the descriptor built from the full
tag sequence (when no errors occurred) or the accumulated error list with no
descriptor value alongside it (the Except is exclusively ok or error). -/
theorem C8_errors_accumulate :
    (∀ input : String,
      ((parseTags input).2.errs = [] →
        parseControlData input = Except.ok (buildControlData (parseTags input).1))
      ∧ (∀ e es, (parseTags input).2.errs = e :: es →
          parseControlData input = Except.error (e :: es)))
    ∧ (parseTags c8input).2.errs.length = 4
    ∧ ((parseTags c8input).2.errs.map (fun er => er.pos.line)) = [1, 1, 2, 2]
    ∧ parseControlData c8input = Except.error (parseTags c8input).2.errs := by
  refine ⟨?_, by decide, by decide, by decide⟩
  intro input
  constructor
  · intro h
    simp [parseControlData, h]
  · intro e es h
    simp [parseControlData, h]

/-- Witness for C8's general part at a concrete error-free input. -/
theorem C8_errors_accumulate_witness :
    parseControlData c6input = Except.ok (buildControlData (parseTags c6input).1) :=
  (C8_errors_accumulate.1 c6input).1 (by decide)

/-! ## Claim C9. -/

/-- Behaviour of the page-reading loop: on success the trace of filenames
passed to the sheet capability is exactly the iterated entries' files in
iteration order; on failure the returned error is the capability's error for
the first failing entry in iteration order (every earlier entry read
successfully). -/
theorem readPagesLoop_spec {Sheet : Type} (sheets : String → Except String Sheet) :
    ∀ (order : List (Int × Page)) (acc : List (Int × Sheet)),
      (∀ m, (readPagesLoop sheets order acc).2 = Except.ok m →
        (readPagesLoop sheets order acc).1 = order.map (fun pr => pr.2.file))
      ∧ (∀ e, (readPagesLoop sheets order acc).2 = Except.error e →
          ∃ mid pg tail, order = mid ++ pg :: tail
            ∧ (∀ q ∈ mid, ∃ sh, sheets q.2.file = Except.ok sh)
            ∧ sheets pg.2.file = Except.error e) := by
  intro order
  induction order with
  | nil =>
    intro acc
    constructor
    · intro m _; simp [readPagesLoop]
    · intro e he; simp [readPagesLoop] at he
  | cons entry rest ih =>
    intro acc
    obtain ⟨i, pg⟩ := entry
    cases hs : sheets pg.file with
    | error e0 =>
      constructor
      · intro m hm
        simp [readPagesLoop, hs] at hm
      · intro e he
        simp [readPagesLoop, hs] at he
        exact ⟨[], (i, pg), rest, rfl, by simp, by rw [hs, he]⟩
    | ok sh =>
      constructor
      · intro m hm
        simp only [readPagesLoop, hs] at hm ⊢
        rw [(ih (assocInsert acc i sh)).1 m hm]
        simp
      · intro e he
        simp only [readPagesLoop, hs] at he
        obtain ⟨mid, pg', tail, hsplit, hpre, herr⟩ := (ih (assocInsert acc i sh)).2 e he
        refine ⟨(i, pg) :: mid, pg', tail, by rw [hsplit]; rfl, ?_, herr⟩
        intro q hq
        rcases List.mem_cons.1 hq with hq1 | hq2
        · subst hq1; exact ⟨sh, hs⟩
        · exact hpre q hq2

/-- C9 amended: for every iteration order of the page table admissible under
Go map semantics (any permutation of the entries), the sheet capability is
invoked exactly once per page on a successful load (the trace of filenames is
a permutation of the page table's files), and the first open/decode failure
in that iteration order aborts loading with that error and no Font value. -/
theorem C9_read_once_per_page_any_order {Sheet : Type} (d : ControlData)
    (sheets : String → Except String Sheet) (order : List (Int × Page))
    (hperm : order.Perm d.pages) :
    (∀ fm, (readFont d sheets order).2 = Except.ok fm →
      (readFont d sheets order).1.Perm (d.pages.map (fun pr => pr.2.file)))
    ∧ (∀ e, (readFont d sheets order).2 = Except.error e →
        ∃ mid pg tail, order = mid ++ pg :: tail
          ∧ (∀ q ∈ mid, ∃ sh, sheets q.2.file = Except.ok sh)
          ∧ sheets pg.2.file = Except.error e) := by
  have h := readPagesLoop_spec sheets order []
  constructor
  · intro fm hfm
    simp only [readFont] at hfm ⊢
    cases hr : (readPagesLoop sheets order []).2 with
    | error e => rw [hr] at hfm; simp [Except.map] at hfm
    | ok m =>
      rw [h.1 m hr]
      exact hperm.map _
  · intro e he
    simp only [readFont] at he
    cases hr : (readPagesLoop sheets order []).2 with
    | ok m => rw [hr] at he; simp [Except.map] at he
    | error e2 =>
      rw [hr] at he
      simp only [Except.map] at he
      cases he
      exact h.2 e hr

/-- A two-page font for the C9 counterexample and witness. -/
def d9 : ControlData :=
  { info := Info.zero
    common := Common.zero
    pages := [(0, ⟨0, "a.png"⟩), (1, ⟨1, "b.png"⟩)]
    chars := []
    kerning := [] }

def order9 : List (Int × Page) := [(1, ⟨1, "b.png"⟩), (0, ⟨0, "a.png"⟩)]

def sheetsOk9 : String → Except String Nat := fun _ => Except.ok 0

/-- C9 counterexample: the loop `for i, page := range desc.Pages` iterates a
Go map, whose order is unspecified, so the reversed order order9 is an
admissible iteration of d9's page table; under it the sheet capability is
invoked with "b.png" (page index 1) before "a.png" (page index 0) — not in
ascending page-index order as the claim states. -/
theorem C9_counterexample :
    List.Perm order9 d9.pages
    ∧ (readFont d9 sheetsOk9 order9).1 = ["b.png", "a.png"]
    ∧ (readFont d9 sheetsOk9 order9).2 = Except.ok ⟨d9, [(1, 0), (0, 0)]⟩
    ∧ d9.pages.map (fun pr => pr.2.file) = ["a.png", "b.png"]
    ∧ (["b.png", "a.png"] : List String) ≠ ["a.png", "b.png"] := by
  refine ⟨by decide, by decide, by decide, by decide, by decide⟩

/-- Witness for C9's amended theorem at the identity iteration order. -/
theorem C9_read_once_per_page_any_order_witness :
    (∀ fm, (readFont d9 sheetsOk9 d9.pages).2 = Except.ok fm →
      (readFont d9 sheetsOk9 d9.pages).1.Perm (d9.pages.map (fun pr => pr.2.file)))
    ∧ (∀ e, (readFont d9 sheetsOk9 d9.pages).2 = Except.error e →
        ∃ mid pg tail, d9.pages = mid ++ pg :: tail
          ∧ (∀ q ∈ mid, ∃ sh, sheetsOk9 q.2.file = Except.ok sh)
          ∧ sheetsOk9 pg.2.file = Except.error e) :=
  C9_read_once_per_page_any_order d9 sheetsOk9 d9.pages (List.Perm.refl _)

/-! ## Claim C10. -/

/-- Every glyph record in the table has zero Page and Channel. -/
def CharsZero (d : ControlData) : Prop :=
  ∀ r c, assocLookup d.chars r = some c → c.page = 0 ∧ c.channel = 0

theorem assocLookup_insert {κ α : Type} [DecidableEq κ] (m : List (κ × α)) (k k' : κ) (v : α) :
    assocLookup (assocInsert m k v) k' = if k = k' then some v else assocLookup m k' := by
  induction m with
  | nil => simp only [assocInsert, assocLookup]
  | cons kv rest ih =>
    obtain ⟨k0, v0⟩ := kv
    simp only [assocInsert]
    by_cases h0 : k0 = k
    · subst h0
      simp only [if_pos rfl, assocLookup]
      by_cases h1 : k0 = k'
      · simp [h1]
      · simp [h1]
    · rw [if_neg h0]
      simp only [assocLookup, ih]
      by_cases h1 : k0 = k'
      · subst h1
        rw [if_pos rfl, if_neg (fun hkk => h0 hkk.symm), if_pos rfl]
      · rw [if_neg h1, if_neg h1]

theorem applyTag_charsZero (f : ControlData) (t : RawTag) (h : CharsZero f) :
    CharsZero (applyTag f t) := by
  unfold applyTag
  split_ifs with h1 h2 h3 h4 h5
  · exact h
  · exact h
  · exact h
  · intro r c hlk
    simp only [assocLookup_insert] at hlk
    split at hlk
    · cases hlk; exact ⟨rfl, rfl⟩
    · exact h r c hlk
  · exact h
  · exact h

theorem buildLoop_charsZero (tags : List RawTag) :
    ∀ (f : ControlData), CharsZero f → CharsZero (tags.foldl applyTag f) := by
  induction tags with
  | nil => intro f h; exact h
  | cons t ts ih => intro f h; exact ih _ (applyTag_charsZero f t h)

theorem buildControlData_charsZero (tags : List RawTag) : CharsZero (buildControlData tags) :=
  buildLoop_charsZero tags ControlData.empty
    (fun r c hc => by simp [ControlData.empty, assocLookup] at hc)

theorem charGet_charsZero {d : ControlData} (h : CharsZero d) {r : Char} {ch : CharRec}
    (hg : d.charGet r = some ch) : ch.page = 0 ∧ ch.channel = 0 := by
  unfold ControlData.charGet at hg
  cases hl : assocLookup d.chars r with
  | some c =>
    rw [hl] at hg
    simp only [Option.some.injEq] at hg
    exact hg ▸ h r c hl
  | none =>
    rw [hl] at hg
    exact h '?' ch hg

theorem drawCalls_page_zero (d : ControlData) (h : CharsZero d) :
    ∀ (text : List Char) (pos0 cursor : Pt) (prev : Char) (i : Nat),
      ∀ call ∈ drawTextLoop (fun l c => l ++ [c]) d pos0 text cursor prev i [],
        call.page = 0 := by
  intro text
  induction text with
  | nil => intro pos0 cursor prev i call hc; simp [drawTextLoop] at hc
  | cons r rest ih =>
    intro pos0 cursor prev i call hc
    by_cases hr : r = '\n'
    · subst hr
      simp only [drawTextLoop, if_pos rfl] at hc
      exact ih _ _ _ _ call hc
    · cases hch : d.charGet r with
      | none =>
        simp only [drawTextLoop, if_neg hr, hch] at hc
        exact ih _ _ _ _ call hc
      | some ch =>
        simp only [drawTextLoop, if_neg hr, hch] at hc
        rw [drawTextLoop_append] at hc
        rcases List.mem_append.1 hc with hc1 | hc2
        · simp at hc1
          rw [hc1]
          exact (charGet_charsZero h hch).1
        · exact ih _ _ _ _ call hc2

/-- C10: in every descriptor the parser produces, every glyph record has
Page = 0 and Channel = 0 (the builder's char case populates only the id and
the 7 integer metric fields, ignoring any page= or chnl= attributes on the
tag), and consequently every draw call DrawText emits — for any start
position and text — selects the page sheet at index 0. -/
theorem C10_parser_chars_page_channel_zero :
    (∀ (input : String) (d : ControlData), parseControlData input = Except.ok d →
      ∀ r c, assocLookup d.chars r = some c → c.page = 0 ∧ c.channel = 0)
    ∧ (∀ (input : String) (d : ControlData), parseControlData input = Except.ok d →
        ∀ (pos0 : Pt) (text : List Char), ∀ call ∈ drawTextCalls d pos0 text,
          call.page = 0) := by
  have hok : ∀ input d, parseControlData input = Except.ok d → CharsZero d := by
    intro input d hpc
    simp only [parseControlData] at hpc
    split at hpc
    · cases hpc
      exact buildControlData_charsZero _
    · cases hpc
  exact ⟨fun input d hpc => hok input d hpc,
         fun input d hpc pos0 text call hc =>
           drawCalls_page_zero d (hok input d hpc) text pos0 pos0 (Char.ofNat 0) 0 call hc⟩

/-- A char tag carrying explicit page=2 and chnl=4 attributes, which the
builder ignores. -/
def c10input : String :=
  "char id=65 x=1 y=2 width=3 height=4 xoffset=5 yoffset=6 xadvance=7 page=2 chnl=4\n"

def d10 : ControlData := buildControlData (parseTags c10input).1

def char10 : CharRec := ⟨'A', 1, 2, 3, 4, 5, 6, 7, 0, 0⟩

/-- Witness for C10 at the concrete input whose char tag says page=2 chnl=4:
the parsed glyph record nevertheless has Page = 0 and Channel = 0. -/
theorem C10_parser_chars_page_channel_zero_witness :
    char10.page = 0 ∧ char10.channel = 0 :=
  C10_parser_chars_page_channel_zero.1 c10input d10 (by decide) 'A' char10 (by decide)

end BmFont
